import Mathlib

/-!
Verification of the dynamic-configuration and submission-aggregation core of the
student-feedback system (Next.js API routes over a spreadsheet store).

The TypeScript routes are shallowly embedded:

* JS strings are `String`; the JS string operations used by the routes
  (`trim`, `toLowerCase`, `includes`, the default lexicographic `sort`) are
  modelled structurally on `List Char` so that every definition is executable
  by the kernel.
* `string | number | boolean` response values are an inductive `JsValue` with
  JS truthiness and JS `String(...)` conversion.
* The Google Sheets API is an explicit state-passing interface over a
  `Spreadsheet` value; each primitive returns the new store and an optional
  error (JS exceptions).  Injected failure sets model remote/store failures.
-/

deriving instance DecidableEq for Except

/-- JS whitespace test for `String.prototype.trim` (space, tab, LF, CR). -/
def isJsWhitespace (c : Char) : Bool :=
  c.toNat = 32 || c.toNat = 9 || c.toNat = 10 || c.toNat = 13

/-- Drop whitespace from both ends of a character list. -/
def trimChars (l : List Char) : List Char :=
  ((l.dropWhile isJsWhitespace).reverse.dropWhile isJsWhitespace).reverse

/-- Model of JS `s.trim()`. -/
def jsTrim (s : String) : String := ⟨trimChars s.data⟩

/-- ASCII lower-casing of one character (JS `toLowerCase` on the ASCII range
used by the admin sheet headers). -/
def lowerChar (c : Char) : Char :=
  if 65 ≤ c.toNat ∧ c.toNat ≤ 90 then Char.ofNat (c.toNat + 32) else c

/-- Model of JS `s.toLowerCase()`. -/
def jsToLower (s : String) : String := ⟨s.data.map lowerChar⟩

/-- Whether `pat` occurs at the start of `l`. -/
def listStartsWith : List Char → List Char → Bool
  | _, [] => true
  | [], _ :: _ => false
  | a :: as, b :: bs => a = b && listStartsWith as bs

/-- Whether `pat` occurs anywhere inside `l`. -/
def listHasSub : List Char → List Char → Bool
  | [], pat => listStartsWith [] pat
  | a :: rest, pat => listStartsWith (a :: rest) pat || listHasSub rest pat

/-- Model of JS `s.includes(pat)`. -/
def jsIncludes (s pat : String) : Bool := listHasSub s.data pat.data

/-- Lexicographic comparison of character lists by code point; this is the
order of the default JS `Array.prototype.sort` comparator on strings. -/
def lexLe : List Char → List Char → Bool
  | [], _ => true
  | _ :: _, [] => false
  | a :: as, b :: bs => if a = b then lexLe as bs else decide (a.toNat < b.toNat)

/-- The JS default string order as a relation on `String`. -/
def strLe (a b : String) : Prop := lexLe a.data b.data = true

instance : DecidableRel strLe := fun a b => by unfold strLe; infer_instance

/-- Model of the default JS `Array.prototype.sort()` on an array of strings:
the unique sorted arrangement under the code-point lexicographic order. -/
def sortStrings (l : List String) : List String := l.insertionSort strLe

/-- Most-significant-digit-first decimal digits of a natural number. -/
def decDigits (n : Nat) : List Char :=
  if _h : n < 10 then [Nat.digitChar n]
  else decDigits (n / 10) ++ [Nat.digitChar (n % 10)]
  decreasing_by exact Nat.div_lt_self (by omega) (by omega)

/-- A JS `string | number | boolean` response value
(`EnhancedFeedbackData.responses` values). -/
inductive JsValue where
  | str : String → JsValue
  | num : Int → JsValue
  | bool : Bool → JsValue
deriving DecidableEq

/-- JS truthiness of a response value (the `response ?` test in the source). -/
def JsValue.truthy : JsValue → Bool
  | .str s => !(s = "")
  | .num n => !(n = 0)
  | .bool b => b

/-- JS `String(...)` conversion of a response value. -/
def JsValue.asJsString : JsValue → String
  | .str s => s
  | .num n => n.repr
  | .bool b => if b then "true" else "false"

/-- The `EnhancedFeedbackData` interface (`src/unnamed/part_003`).  The TS
field `section` is a Lean keyword and is embedded as `sectionName`; the
response map is an association list. -/
structure EnhancedFeedbackData where
  branch : String
  year : String
  sectionName : String
  registrationNumber : String
  subject : String
  teacher : String
  responses : List (String × JsValue)
  timestamp : String
deriving DecidableEq

/-- JS property read `feedback.responses[questionId]` (first binding wins;
`none` is JS `undefined`). -/
def lookupResponse : List (String × JsValue) → String → Option JsValue
  | [], _ => none
  | (k, v) :: rest, questionId =>
    if k = questionId then some v else lookupResponse rest questionId

/-- The grouping key `` `${feedback.branch}_${feedback.year}_${feedback.section}` ``. -/
def sheetKeyOf (f : EnhancedFeedbackData) : String :=
  f.branch ++ "_" ++ f.year ++ "_" ++ f.sectionName

/-- One step of the `reduce` in `groupFeedbackBySheet`: push `f` onto the
group of `key`, creating the group at the end when absent (JS object keys
keep insertion order). -/
def addToGroup (groups : List (String × List EnhancedFeedbackData)) (key : String)
    (f : EnhancedFeedbackData) : List (String × List EnhancedFeedbackData) :=
  match groups with
  | [] => [(key, [f])]
  | (k, fs) :: rest =>
    if k = key then (k, fs ++ [f]) :: rest else (k, fs) :: addToGroup rest key f

/-- `groupFeedbackBySheet` (route.ts lines 173-182): groups the batch by
`branch_year_section`. -/
def groupFeedbackBySheet (feedbackData : List EnhancedFeedbackData) :
    List (String × List EnhancedFeedbackData) :=
  feedbackData.foldl (fun groups feedback => addToGroup groups (sheetKeyOf feedback) feedback) []

/-- JS object read `groups[key]` on the grouping result. -/
def groupLookup (groups : List (String × List EnhancedFeedbackData)) (key : String) :
    Option (List EnhancedFeedbackData) :=
  match groups with
  | [] => none
  | (k, fs) :: rest => if k = key then some fs else groupLookup rest key

/-- The sorted list of all distinct question ids appearing in a feedback
group (route.ts lines 195-203: a `Set` filled per item, then `.sort()`). -/
def questionIdsOf (feedbackGroup : List EnhancedFeedbackData) : List String :=
  sortStrings ((feedbackGroup.foldr (fun f acc => f.responses.map Prod.fst ++ acc) []).dedup)

/-- The dynamic header list (route.ts lines 206-214). -/
def headersList (feedbackGroup : List EnhancedFeedbackData) : List String :=
  ["Timestamp", "Branch", "Year", "Section", "Subject", "Teacher"] ++ questionIdsOf feedbackGroup

/-- One answer cell: `row.push(response ? String(response) : '')`
(route.ts lines 259-262).  An absent id (`undefined`) and a present but
falsy value both yield the empty string. -/
def answerCell (responses : List (String × JsValue)) (questionId : String) : String :=
  match lookupResponse responses questionId with
  | some v => if v.truthy then v.asJsString else ""
  | none => ""

/-- One data row for a feedback item (route.ts lines 248-265). -/
def buildRow (now : String) (questionIds : List String) (feedback : EnhancedFeedbackData) :
    List String :=
  [if feedback.timestamp = "" then now else feedback.timestamp,
   feedback.branch, feedback.year, feedback.sectionName, feedback.subject, feedback.teacher]
  ++ questionIds.map (fun questionId => answerCell feedback.responses questionId)

/-- The rows appended for a feedback group (route.ts lines 248-265);
`now` models `new Date().toISOString()`. -/
def buildRows (now : String) (questionIds : List String)
    (feedbackGroup : List EnhancedFeedbackData) : List (List String) :=
  feedbackGroup.map (buildRow now questionIds)

/-- The char code `65 + headers.length - 1` passed to `String.fromCharCode`
to build the end column of the `A1:..1` header range and the `A:..` append
range (route.ts lines 236 and 270). -/
def endColumnCode (headers : List String) : Nat := 65 + headers.length - 1

/-- One sheet (tab) of the spreadsheet: its title and its grid of cells. -/
structure SheetDoc where
  title : String
  cells : List (List String)
deriving DecidableEq

/-- The remote spreadsheet plus injected-failure sets for the three write
primitives used by the submit route. -/
structure Spreadsheet where
  sheets : List SheetDoc
  failCreateFor : List String
  failUpdateFor : List String
  failAppendFor : List String
deriving DecidableEq

/-- An error thrown by a Sheets API call. -/
inductive ApiError where
  | alreadyExists : String → ApiError
  | apiFailure : String → ApiError
deriving DecidableEq

/-- Boolean membership of a string in a list. -/
def memStr (x : String) (l : List String) : Bool := l.any (fun t => t = x)

/-- Whether a sheet titled `title` exists in the store. -/
def sheetExists (s : Spreadsheet) (title : String) : Bool :=
  s.sheets.any (fun sh => sh.title = title)

/-- `sheets.spreadsheets.batchUpdate` with one `addSheet` request (route.ts
lines 218-231): fails when the title already exists, or when the remote call
is injected to fail. -/
def batchUpdateAddSheet (s : Spreadsheet) (title : String) :
    Spreadsheet × Option ApiError :=
  if memStr title s.failCreateFor then (s, some (.apiFailure "batchUpdate"))
  else if sheetExists s title then (s, some (.alreadyExists title))
  else ({ s with sheets := s.sheets ++ [{ title := title, cells := [] }] }, none)

/-- Overwrite the first row of a sheet with `headers`. -/
def setHeaderRow (headers : List String) (sh : SheetDoc) : SheetDoc :=
  { sh with cells := headers :: sh.cells.drop 1 }

/-- `sheets.spreadsheets.values.update` on range `A1:..1` (route.ts lines
234-241): positional overwrite of the header row. -/
def valuesUpdateHeader (s : Spreadsheet) (title : String) (headers : List String) :
    Spreadsheet × Option ApiError :=
  if memStr title s.failUpdateFor then (s, some (.apiFailure "update"))
  else if sheetExists s title then
    ({ s with sheets := s.sheets.map (fun sh =>
        if sh.title = title then setHeaderRow headers sh else sh) }, none)
  else (s, some (.apiFailure "update"))

/-- `sheets.spreadsheets.values.append` on range `A:..` (route.ts lines
268-275): append `rows` after the existing data. -/
def valuesAppend (s : Spreadsheet) (title : String) (rows : List (List String)) :
    Spreadsheet × Option ApiError :=
  if memStr title s.failAppendFor then (s, some (.apiFailure "append"))
  else if sheetExists s title then
    ({ s with sheets := s.sheets.map (fun sh =>
        if sh.title = title then { sh with cells := sh.cells ++ rows } else sh) }, none)
  else (s, some (.apiFailure "append"))

/-- The `try { addSheet; update headers } catch { log }` block of
`processSheetFeedback` (route.ts lines 216-245), the spec's `ensureTable`:
every error of the creation/header step is caught, so the function is total
on the store.  When `addSheet` throws, the header write is skipped (control
jumps to `catch`). -/
def ensureTable (s : Spreadsheet) (sheetName : String) (headers : List String) :
    Spreadsheet :=
  match batchUpdateAddSheet s sheetName with
  | (s1, some _) => s1
  | (s1, none) => (valuesUpdateHeader s1 sheetName headers).1

/-- `processSheetFeedback` (route.ts lines 187-276): derive the sorted
question ids and headers, best-effort create-and-write-header, then append
the data rows; only an append error escapes. -/
def processSheetFeedback (now : String) (s : Spreadsheet) (sheetKey : String)
    (feedbackGroup : List EnhancedFeedbackData) : Spreadsheet × Option ApiError :=
  let sheetName := "Responses_" ++ sheetKey
  let questionIds := questionIdsOf feedbackGroup
  let headers := ["Timestamp", "Branch", "Year", "Section", "Subject", "Teacher"] ++ questionIds
  let s1 :=
    match batchUpdateAddSheet s sheetName with
    | (sA, some _) => sA
    | (sA, none) => (valuesUpdateHeader sA sheetName headers).1
  valuesAppend s1 sheetName (buildRows now questionIds feedbackGroup)

/-- The per-group loop of the POST handler (route.ts lines 146-148): the
groups are processed sequentially inside one `try`, so the first error
aborts the remaining iterations. -/
def processAllGroups (now : String) (s : Spreadsheet) :
    List (String × List EnhancedFeedbackData) → Spreadsheet × Option ApiError
  | [] => (s, none)
  | (sheetKey, feedbackGroup) :: rest =>
    match processSheetFeedback now s sheetKey feedbackGroup with
    | (s1, some e) => (s1, some e)
    | (s1, none) => processAllGroups now s1 rest

/-- The options payload `{ branches, years, sections }`. -/
structure OptionsIndex where
  branches : List String
  years : List String
  sections : List String
deriving DecidableEq

/-- The 404 conditions of the options route. -/
inductive OptionsError where
  | noData : OptionsError
  | noDataRows : OptionsError
deriving DecidableEq

/-- Collect the trimmed values of column `i` over the data rows: the body of
`for (const row of dataRows) { if (row[i]) set.add(row[i].trim()) }` — an
absent (`undefined`) or empty cell is skipped, a non-empty cell contributes
its trimmed value. -/
def collectCol (dataRows : List (List String)) (i : Nat) : List String :=
  dataRows.filterMap (fun row =>
    match row.get? i with
    | some cell => if cell = "" then none else some (jsTrim cell)
    | none => none)

/-- The shared success path of both options routes: sets of trimmed values
per column, converted to sorted arrays (`Set` + `Array.from(...).sort()`
modelled as dedup + sort). -/
def parseOptionsCore (dataRows : List (List String)) : OptionsIndex :=
  { branches := sortStrings (collectCol dataRows 0).dedup
    years := sortStrings (collectCol dataRows 1).dedup
    sections := sortStrings (collectCol dataRows 2).dedup }

/-- The GET options handler of `src/src/app/api/get-options/route.ts`
(lines 41-71): only `rows.length === 0` is rejected; a header-only table
falls through to the success path with empty data rows. -/
def parseOptionsV1 (rows : List (List String)) : Except OptionsError OptionsIndex :=
  if rows.length = 0 then .error .noData
  else .ok (parseOptionsCore (rows.drop 1))

/-- The GET options handler of `src/unnamed/part_002` (lines 250-294): a
table with no rows or with only the header row is a 404. -/
def parseOptionsV2 (rows : List (List String)) : Except OptionsError OptionsIndex :=
  if rows.length = 0 then .error .noData
  else if rows.length = 1 then .error .noDataRows
  else .ok (parseOptionsCore (rows.drop 1))

/-- The `Question.type` union (`src/unnamed/part_003`). -/
inductive QuestionType where
  | rating : QuestionType
  | text : QuestionType
  | boolean : QuestionType
deriving DecidableEq

/-- The `Question` interface (`src/unnamed/part_003`). -/
structure Question where
  id : String
  text : String
  type : QuestionType
  required : Bool
deriving DecidableEq

/-- The `AdminSubject` interface (`src/unnamed/part_003`). -/
structure AdminSubject where
  subject : String
  teacher : String
  questions : List Question
deriving DecidableEq

/-- The `AdminSheetConfig` interface (`src/unnamed/part_003`); the TS field
`section` is embedded as `sectionName`. -/
structure AdminSheetConfig where
  year : String
  branch : String
  sectionName : String
  subjects : List AdminSubject
  lastUpdated : String
deriving DecidableEq

/-- The error outcomes of the admin-config route: 404 with `useStaticData`
for an empty table or a cohort with no matching rows, 400 for missing
required columns. -/
inductive AdminConfigError where
  | noData : AdminConfigError
  | missingColumns : AdminConfigError
  | notFound : AdminConfigError
deriving DecidableEq

/-- `headers.findIndex(h => h.toLowerCase().includes(key))` (part_002 lines
82-86), with `-1` embedded as `none`. -/
def findHeaderIndex (headers : List String) (key : String) : Option Nat :=
  headers.findIdx? (fun h => jsIncludes (jsToLower h) key)

/-- Locate the five required columns (part_002 lines 82-93). -/
def locateColumns (headers : List String) :
    Option (Nat × Nat × Nat × Nat × Nat) :=
  match findHeaderIndex headers "branch", findHeaderIndex headers "year",
      findHeaderIndex headers "section", findHeaderIndex headers "subject",
      findHeaderIndex headers "teacher" with
  | some branchIndex, some yearIndex, some sectionIndex, some subjectIndex, some teacherIndex =>
    some (branchIndex, yearIndex, sectionIndex, subjectIndex, teacherIndex)
  | _, _, _, _, _ => none

/-- The `headers.forEach` building `questionColumns` (part_002 lines 95-107):
each entry is `(index, id, text)` where the id counts the entries collected
so far. -/
def questionColumns (headers : List String) (teacherIndex : Nat) :
    List (Nat × String × String) :=
  headers.enum.foldl
    (fun acc p =>
      if teacherIndex < p.1 ∧ p.2 ≠ "" ∧ jsTrim p.2 ≠ "" then
        acc ++ [(p.1, "question" ++ Nat.repr (acc.length + 1), jsTrim p.2)]
      else acc)
    []

/-- The per-row filter of the admin-config route (part_002 lines 112-135):
trimmed exact match on branch/year/section, truthy subject and teacher, and
the header-derived question list attached to the subject entry. -/
def matchRow (branch year sectionName : String)
    (branchIndex yearIndex sectionIndex subjectIndex teacherIndex : Nat)
    (questionCols : List (Nat × String × String)) (row : List String) :
    Option AdminSubject :=
  match (row.get? branchIndex).map jsTrim, (row.get? yearIndex).map jsTrim,
      (row.get? sectionIndex).map jsTrim, (row.get? subjectIndex).map jsTrim,
      (row.get? teacherIndex).map jsTrim with
  | some rowBranch, some rowYear, some rowSection, some rowSubject, some rowTeacher =>
    if rowBranch = branch ∧ rowYear = year ∧ rowSection = sectionName ∧
        rowSubject ≠ "" ∧ rowTeacher ≠ "" then
      some { subject := rowSubject, teacher := rowTeacher,
             questions := questionCols.map (fun c =>
               { id := c.2.1, text := c.2.2, type := QuestionType.rating, required := true }) }
    else none
  | _, _, _, _, _ => none

/-- The GET admin-config handler (part_002 lines 61-154): `now` models
`new Date().toISOString()` for the `lastUpdated` field. -/
def parseCohortSchema (rows : List (List String)) (branch year sectionName now : String) :
    Except AdminConfigError AdminSheetConfig :=
  match rows with
  | [] => .error .noData
  | headers :: dataRows =>
    match locateColumns headers with
    | none => .error .missingColumns
    | some (branchIndex, yearIndex, sectionIndex, subjectIndex, teacherIndex) =>
      let questionCols := questionColumns headers teacherIndex
      let subjects := dataRows.filterMap
        (matchRow branch year sectionName branchIndex yearIndex sectionIndex
          subjectIndex teacherIndex questionCols)
      if subjects.isEmpty then .error .notFound
      else .ok { year := year, branch := branch, sectionName := sectionName,
                 subjects := subjects, lastUpdated := now }

/-- A cohort group with 21 distinct question ids (27 headers). -/
def c10BigFeedback : EnhancedFeedbackData :=
  ⟨"CSE", "1st Year", "A", "R1", "Math", "Dr.X",
   [("a", .num 1), ("b", .num 1), ("c", .num 1), ("d", .num 1), ("e", .num 1),
    ("f", .num 1), ("g", .num 1), ("h", .num 1), ("i", .num 1), ("j", .num 1),
    ("k", .num 1), ("l", .num 1), ("m", .num 1), ("n", .num 1), ("o", .num 1),
    ("p", .num 1), ("q", .num 1), ("r", .num 1), ("s", .num 1), ("t", .num 1),
    ("u", .num 1)], "T"⟩

/-- A cohort group with one question id (7 headers). -/
def c10SmallFeedback : EnhancedFeedbackData :=
  ⟨"CSE", "1st Year", "A", "R1", "Math", "Dr.X", [("question1", .num 8)], "T"⟩

/-- C1 counterexample input: the question id is present in the response map
but bound to the falsy value `0`, and the timestamp is the empty string. -/
def c1Feedback : EnhancedFeedbackData :=
  ⟨"CSE", "1st Year", "A", "R1", "Math", "Dr.X", [("question1", .num 0)], ""⟩

/-- C1 witness feedback item: one present truthy response, one absent id. -/
def c1WitnessFeedback : EnhancedFeedbackData :=
  ⟨"CSE", "1st Year", "A", "R1", "Math", "Dr.X", [("question1", .num 8)], "T1"⟩

/-- C2 witness store: the table for cohort `CSE_1st Year_A` already exists. -/
def c2Store : Spreadsheet :=
  ⟨[{ title := "Responses_CSE_1st Year_A",
      cells := [["Timestamp", "Branch", "Year", "Section", "Subject", "Teacher", "question1"]] }],
   [], [], []⟩

/-- Feedback items of two different cohorts. -/
def c3FeedbackA : EnhancedFeedbackData :=
  ⟨"CSE", "1st Year", "A", "R1", "Math", "Dr.X", [("question1", .num 8)], "T1"⟩

def c3FeedbackB : EnhancedFeedbackData :=
  ⟨"ECE", "1st Year", "A", "R2", "Physics", "Dr.Y", [("question1", .num 7)], "T2"⟩

/-- A store where appends to the CSE cohort's table fail hard. -/
def c3Store : Spreadsheet := ⟨[], [], [], ["Responses_CSE_1st Year_A"]⟩

/-- Concrete batch of the claim: two items of cohort (CSE, 1st Year, A) and
one of cohort (ECE, 1st Year, A). -/
def c8Feedback1 : EnhancedFeedbackData :=
  ⟨"CSE", "1st Year", "A", "R1", "Math", "Dr.X", [("question1", .num 8)], "T1"⟩

def c8Feedback2 : EnhancedFeedbackData :=
  ⟨"CSE", "1st Year", "A", "R2", "Physics", "Dr.Y", [("question1", .num 7)], "T2"⟩

def c8Feedback3 : EnhancedFeedbackData :=
  ⟨"ECE", "1st Year", "A", "R3", "Chemistry", "Dr.Z", [("question1", .num 6)], "T3"⟩

/-- The loop step of the `headers.forEach` building `questionColumns`. -/
def qcolStep (teacherIndex : Nat) (acc : List (Nat × String × String)) (p : Nat × String) :
    List (Nat × String × String) :=
  if teacherIndex < p.1 ∧ p.2 ≠ "" ∧ jsTrim p.2 ≠ "" then
    acc ++ [(p.1, "question" ++ Nat.repr (acc.length + 1), jsTrim p.2)]
  else acc

/-- Positional id assignment: entry `j` of the result gets id
`question(k+j+1)`. -/
def assignIdsFrom (k : Nat) : List (Nat × String) → List (Nat × String × String)
  | [] => []
  | p :: rest => (p.1, "question" ++ Nat.repr (k + 1), jsTrim p.2) :: assignIdsFrom (k + 1) rest

/-- C9 counterexample data: two configuration tables whose single data row
differs only in the cell of the question column at index 4 (the Subject
column, which lies after the Teacher column). -/
def c9RowsA : List (List String) :=
  [["Branch", "Year", "Section", "Teacher", "Subject"],
   ["CSE", "1st Year", "A", "Dr.X", "Math"]]

def c9RowsB : List (List String) :=
  [["Branch", "Year", "Section", "Teacher", "Subject"],
   ["CSE", "1st Year", "A", "Dr.X", "Physics"]]

/-- The schema returned for the C9 witness table. -/
def c9WitnessConfig : AdminSheetConfig :=
  ⟨"1st Year", "CSE", "A",
   [⟨"Math", "Dr.X",
     [⟨"question1", "Q1", QuestionType.rating, true⟩,
      ⟨"question2", "Q2", QuestionType.rating, true⟩]⟩],
   "NOW"⟩

/-- The C9 witness configuration table. -/
def c9WitnessRows : List (List String) :=
  [["Branch", "Year", "Section", "Subject", "Teacher", "Q1", "Q2"],
   ["CSE", "1st Year", "A", "Math", "Dr.X", "text1", "text2"]]

theorem char_toNat_inj {a b : Char} (h : a.toNat = b.toNat) : a = b :=
  Char.ext (UInt32.ext h)

theorem lexLe_total : ∀ a b : List Char, lexLe a b = true ∨ lexLe b a = true
  | [], _ => Or.inl rfl
  | _ :: _, [] => Or.inr rfl
  | a :: as, b :: bs => by
    by_cases hab : a = b
    · subst hab
      simpa [lexLe] using lexLe_total as bs
    · have hn : a.toNat ≠ b.toNat := fun h => hab (char_toNat_inj h)
      rcases Nat.lt_or_ge a.toNat b.toNat with h | h
      · exact Or.inl (by simp [lexLe, hab, h])
      · have hlt : b.toNat < a.toNat := lt_of_le_of_ne h (Ne.symm hn)
        have hba : ¬b = a := fun hh => hab hh.symm
        exact Or.inr (by simp [lexLe, hba, hlt])

theorem lexLe_antisymm : ∀ a b : List Char, lexLe a b = true → lexLe b a = true → a = b
  | [], [], _, _ => rfl
  | [], _ :: _, _, h => by simp [lexLe] at h
  | _ :: _, [], h, _ => by simp [lexLe] at h
  | a :: as, b :: bs, h1, h2 => by
    by_cases hab : a = b
    · subst hab
      simp only [lexLe, if_pos rfl] at h1 h2
      exact congrArg (a :: ·) (lexLe_antisymm as bs h1 h2)
    · have hba : ¬b = a := fun hh => hab hh.symm
      simp only [lexLe, if_neg hab, decide_eq_true_eq] at h1
      simp only [lexLe, if_neg hba, decide_eq_true_eq] at h2
      exact absurd h2 (Nat.lt_asymm h1)

theorem lexLe_trans : ∀ a b c : List Char,
    lexLe a b = true → lexLe b c = true → lexLe a c = true
  | [], _, _, _, _ => rfl
  | _ :: _, [], _, h, _ => by simp [lexLe] at h
  | _ :: _, _ :: _, [], _, h => by simp [lexLe] at h
  | a :: as, b :: bs, c :: cs, h1, h2 => by
    by_cases hab : a = b
    · subst hab
      by_cases hbc : a = c
      · subst hbc
        simp only [lexLe, if_pos rfl] at h1 h2 ⊢
        exact lexLe_trans as bs cs h1 h2
      · simp only [lexLe, if_pos rfl] at h1
        simpa [lexLe, hbc] using h2
    · by_cases hbc : b = c
      · subst hbc
        simpa [lexLe, hab] using h1
      · simp only [lexLe, if_neg hab, decide_eq_true_eq] at h1
        simp only [lexLe, if_neg hbc, decide_eq_true_eq] at h2
        have hac : a.toNat < c.toNat := Nat.lt_trans h1 h2
        have hne : a ≠ c := fun h => by
          subst h; exact Nat.lt_irrefl _ hac
        simp [lexLe, hne, hac]

instance : IsTotal String strLe := ⟨fun a b => lexLe_total a.data b.data⟩

instance : IsTrans String strLe := ⟨fun a b c => lexLe_trans a.data b.data c.data⟩

instance : IsAntisymm String strLe :=
  ⟨fun a b h1 h2 => by
    cases a; cases b
    exact congrArg String.mk (lexLe_antisymm _ _ h1 h2)⟩

theorem sortStrings_perm (l : List String) : (sortStrings l).Perm l :=
  List.perm_insertionSort strLe l

theorem sortStrings_sorted (l : List String) : (sortStrings l).Sorted strLe :=
  List.sorted_insertionSort strLe l

theorem sortStrings_mem {v : String} {l : List String} : v ∈ sortStrings l ↔ v ∈ l :=
  (sortStrings_perm l).mem_iff

/-- Sorting two lists with the same elements and no duplicates gives the same
result; this is what makes the options lists canonical. -/
theorem sortStrings_eq_of_perm {l₁ l₂ : List String} (h : l₁.Perm l₂) :
    sortStrings l₁ = sortStrings l₂ :=
  List.eq_of_perm_of_sorted
    ((sortStrings_perm l₁).trans (h.trans (sortStrings_perm l₂).symm))
    (sortStrings_sorted l₁) (sortStrings_sorted l₂)

theorem toDigitsCore_eq_decDigits :
    ∀ (fuel n : Nat) (ds : List Char), n < fuel →
      Nat.toDigitsCore 10 fuel n ds = decDigits n ++ ds := by
  intro fuel
  induction fuel with
  | zero => intro n ds h; omega
  | succ fuel ih =>
    intro n ds _
    by_cases h10 : n < 10
    · have hdiv : n / 10 = 0 := Nat.div_eq_of_lt h10
      have hmod : n % 10 = n := Nat.mod_eq_of_lt h10
      simp [Nat.toDigitsCore, hdiv, hmod, decDigits, h10]
    · have hdiv : ¬n / 10 = 0 := by
        intro h
        exact h10 (by omega)
      have hlt : n / 10 < fuel := by
        have : n / 10 < n := Nat.div_lt_self (by omega) (by omega)
        omega
      rw [decDigits]
      simp only [Nat.toDigitsCore, dif_neg h10, if_neg hdiv]
      rw [ih (n / 10) (Nat.digitChar (n % 10) :: ds) hlt]
      simp

theorem toDigits_eq_decDigits (n : Nat) : Nat.toDigits 10 n = decDigits n := by
  have h := toDigitsCore_eq_decDigits (n + 1) n [] (by omega)
  simpa [Nat.toDigits] using h

theorem digitChar_inj_lt {a b : Nat} (ha : a < 10) (hb : b < 10)
    (h : Nat.digitChar a = Nat.digitChar b) : a = b := by
  interval_cases a <;> interval_cases b <;> revert h <;> decide

theorem decDigits_ne_nil (n : Nat) : decDigits n ≠ [] := by
  rw [decDigits]
  split <;> simp

theorem decDigits_eq_small {n : Nat} (h : n < 10) : decDigits n = [Nat.digitChar n] := by
  rw [decDigits]
  simp [h]

theorem decDigits_eq_large {n : Nat} (h : ¬n < 10) :
    decDigits n = decDigits (n / 10) ++ [Nat.digitChar (n % 10)] := by
  conv_lhs => rw [decDigits]
  simp [h]

theorem decDigits_inj : ∀ n m : Nat, decDigits n = decDigits m → n = m := by
  intro n
  induction n using Nat.strong_induction_on with
  | _ n ih =>
    intro m h
    by_cases hn : n < 10 <;> by_cases hm : m < 10
    · rw [decDigits_eq_small hn, decDigits_eq_small hm] at h
      simp only [List.cons.injEq, and_true] at h
      exact digitChar_inj_lt hn hm h
    · rw [decDigits_eq_small hn, decDigits_eq_large hm] at h
      have hlen := congrArg List.length h
      simp only [List.length_cons, List.length_append, List.length_nil] at hlen
      have h0 : (decDigits (m / 10)).length = 0 := by omega
      exact absurd (List.length_eq_zero.mp h0) (decDigits_ne_nil _)
    · rw [decDigits_eq_large hn, decDigits_eq_small hm] at h
      have hlen := congrArg List.length h
      simp only [List.length_cons, List.length_append, List.length_nil] at hlen
      have h0 : (decDigits (n / 10)).length = 0 := by omega
      exact absurd (List.length_eq_zero.mp h0) (decDigits_ne_nil _)
    · rw [decDigits_eq_large hn, decDigits_eq_large hm] at h
      have hrev := congrArg List.reverse h
      simp only [List.reverse_append, List.reverse_cons, List.reverse_nil, List.nil_append,
        List.singleton_append, List.cons.injEq] at hrev
      obtain ⟨hdig, htail⟩ := hrev
      have hmods : n % 10 = m % 10 :=
        digitChar_inj_lt (Nat.mod_lt _ (by omega)) (Nat.mod_lt _ (by omega)) hdig
      have hdivs : n / 10 = m / 10 := by
        have hdd : decDigits (n / 10) = decDigits (m / 10) :=
          List.reverse_inj.mp htail
        exact ih (n / 10) (Nat.div_lt_self (by omega) (by omega)) (m / 10) hdd
      omega

theorem natRepr_inj {n m : Nat} (h : Nat.repr n = Nat.repr m) : n = m := by
  apply decDigits_inj
  have h2 := congrArg String.data h
  simpa [Nat.repr, toDigits_eq_decDigits, List.asString] using h2

/-- Cancellation of a common prefix in string concatenation. -/
theorem string_append_left_cancel {s a b : String} (h : s ++ a = s ++ b) : a = b := by
  have h2 := congrArg String.data h
  simp only [String.data_append] at h2
  cases a; cases b
  exact congrArg String.mk (List.append_cancel_left h2)

theorem question_id_inj {n m : Nat}
    (h : "question" ++ Nat.repr n = "question" ++ Nat.repr m) : n = m :=
  natRepr_inj (string_append_left_cancel h)

/-- C10: for every cohort group whose derived header list exceeds 26 columns
(more than 20 distinct question ids), the end-column char code
`65 + headers.length - 1` of the header-write and append range specs is not
an uppercase letter A-Z, so the range spec is not a valid column reference;
for 26 or fewer columns it is the code of the correct column letter
(`64 + headers.length`, i.e. the `headers.length`-th letter). -/
theorem c10_end_column_code (feedbackGroup : List EnhancedFeedbackData) :
    (headersList feedbackGroup).length = 6 + (questionIdsOf feedbackGroup).length ∧
    (26 < (headersList feedbackGroup).length →
      ¬(65 ≤ endColumnCode (headersList feedbackGroup) ∧
        endColumnCode (headersList feedbackGroup) ≤ 90)) ∧
    ((headersList feedbackGroup).length ≤ 26 →
      endColumnCode (headersList feedbackGroup) = 64 + (headersList feedbackGroup).length ∧
      65 ≤ endColumnCode (headersList feedbackGroup) ∧
      endColumnCode (headersList feedbackGroup) ≤ 90) := by
  have hlen : (headersList feedbackGroup).length = 6 + (questionIdsOf feedbackGroup).length := by
    simp [headersList]
    omega
  refine ⟨hlen, ?_, ?_⟩ <;> (intro h; unfold endColumnCode; omega)

/-- C10 witness: at 27 headers the end-column code escapes A-Z; at 7 headers
it is the code of the seventh letter G. -/
theorem c10_end_column_code_witness :
    ¬(65 ≤ endColumnCode (headersList [c10BigFeedback]) ∧
      endColumnCode (headersList [c10BigFeedback]) ≤ 90) ∧
    endColumnCode (headersList [c10SmallFeedback]) =
      64 + (headersList [c10SmallFeedback]).length :=
  ⟨(c10_end_column_code [c10BigFeedback]).2.1 (by decide),
   ((c10_end_column_code [c10SmallFeedback]).2.2 (by decide)).1⟩

/-- C1 counterexample: with `responses = {question1: 0}` the id `question1`
is present in the response map, yet the emitted answer cell is `""` and not
the stringified value `"0"`; likewise the row does not begin with the
(empty) timestamp but with `now()` — `feedback.timestamp || new Date()...`
tests truthiness, not only presence. -/
theorem c1_counterexample :
    buildRows "NOW" ["question1"] [c1Feedback] = [buildRow "NOW" ["question1"] c1Feedback] ∧
    lookupResponse c1Feedback.responses "question1" = some (JsValue.num 0) ∧
    (buildRow "NOW" ["question1"] c1Feedback).get? 6 = some "" ∧
    (JsValue.num 0).asJsString = "0" ∧ ("" : String) ≠ "0" ∧
    (buildRow "NOW" ["question1"] c1Feedback).get? 0 = some "NOW" ∧
    ("NOW" : String) ≠ c1Feedback.timestamp := by
  refine ⟨rfl, rfl, rfl, rfl, by decide, rfl, by decide⟩

/-- C1 (amended): every emitted row has length exactly
`6 + questionIds.length` and begins with
`[timestamp when truthy else now(), branch, year, section, subject, teacher]`;
position `i` of the answer section holds the stringified value of the
response map at `questionIds[i]` whenever that id is present with a truthy
value, and the empty string when the id is absent or its value is falsy —
never `undefined` or null. -/
theorem c1_buildRows_amended (now : String) (questionIds : List String)
    (feedbackGroup : List EnhancedFeedbackData) (f : EnhancedFeedbackData)
    (hf : f ∈ feedbackGroup) :
    (∀ row ∈ buildRows now questionIds feedbackGroup,
      row.length = 6 + questionIds.length) ∧
    buildRow now questionIds f ∈ buildRows now questionIds feedbackGroup ∧
    (buildRow now questionIds f).take 6 =
      [if f.timestamp = "" then now else f.timestamp,
       f.branch, f.year, f.sectionName, f.subject, f.teacher] ∧
    (∀ i qid, questionIds.get? i = some qid →
      (lookupResponse f.responses qid = none →
        (buildRow now questionIds f).get? (6 + i) = some "") ∧
      (∀ v, lookupResponse f.responses qid = some v → v.truthy = true →
        (buildRow now questionIds f).get? (6 + i) = some v.asJsString) ∧
      (∀ v, lookupResponse f.responses qid = some v → v.truthy = false →
        (buildRow now questionIds f).get? (6 + i) = some "")) := by
  have hget : ∀ i qid, questionIds.get? i = some qid →
      (buildRow now questionIds f).get? (6 + i) = some (answerCell f.responses qid) := by
    intro i qid hq
    have h6 : ([if f.timestamp = "" then now else f.timestamp,
        f.branch, f.year, f.sectionName, f.subject, f.teacher] : List String).length = 6 := rfl
    unfold buildRow
    rw [List.get?_append_right (by simp)]
    simp only [h6, Nat.add_sub_cancel_left, List.get?_map]
    rw [hq]
    rfl
  refine ⟨?_, List.mem_map_of_mem _ hf, ?_, ?_⟩
  · intro row hrow
    obtain ⟨g, _, rfl⟩ := List.mem_map.mp hrow
    simp [buildRow]
    omega
  · unfold buildRow
    rw [List.take_append_of_le_length (by simp)]
    rfl
  · intro i qid hq
    refine ⟨?_, ?_, ?_⟩
    · intro hnone
      rw [hget i qid hq]
      simp [answerCell, hnone]
    · intro v hv htr
      rw [hget i qid hq]
      simp [answerCell, hv, htr]
    · intro v hv htr
      rw [hget i qid hq]
      simp [answerCell, hv, htr]

/-- C1 witness: the amended row shape at a concrete item with a present
truthy answer and an absent question id. -/
theorem c1_buildRows_amended_witness :
    (∀ row ∈ buildRows "NOW" ["question1", "question2"] [c1WitnessFeedback],
      row.length = 6 + (["question1", "question2"] : List String).length) ∧
    buildRow "NOW" ["question1", "question2"] c1WitnessFeedback ∈
      buildRows "NOW" ["question1", "question2"] [c1WitnessFeedback] ∧
    (buildRow "NOW" ["question1", "question2"] c1WitnessFeedback).take 6 =
      [if c1WitnessFeedback.timestamp = "" then "NOW" else c1WitnessFeedback.timestamp,
       c1WitnessFeedback.branch, c1WitnessFeedback.year, c1WitnessFeedback.sectionName,
       c1WitnessFeedback.subject, c1WitnessFeedback.teacher] ∧
    (∀ i qid, (["question1", "question2"] : List String).get? i = some qid →
      (lookupResponse c1WitnessFeedback.responses qid = none →
        (buildRow "NOW" ["question1", "question2"] c1WitnessFeedback).get? (6 + i) = some "") ∧
      (∀ v, lookupResponse c1WitnessFeedback.responses qid = some v → v.truthy = true →
        (buildRow "NOW" ["question1", "question2"] c1WitnessFeedback).get? (6 + i) =
          some v.asJsString) ∧
      (∀ v, lookupResponse c1WitnessFeedback.responses qid = some v → v.truthy = false →
        (buildRow "NOW" ["question1", "question2"] c1WitnessFeedback).get? (6 + i) = some "")) :=
  c1_buildRows_amended "NOW" ["question1", "question2"] [c1WitnessFeedback]
    c1WitnessFeedback (by decide)

theorem any_title_map (l : List SheetDoc) (g : SheetDoc → SheetDoc)
    (hg : ∀ sh, (g sh).title = sh.title) (t : String) :
    ((l.map g).any (fun sh => sh.title = t)) = (l.any (fun sh => sh.title = t)) := by
  induction l with
  | nil => rfl
  | cons x xs ih => simp only [List.map_cons, List.any_cons, hg, ih]

theorem valuesUpdateHeader_preserves (s : Spreadsheet) (t : String)
    (headers : List String) :
    (valuesUpdateHeader s t headers).1.failCreateFor = s.failCreateFor ∧
    (∀ t', sheetExists (valuesUpdateHeader s t headers).1 t' = sheetExists s t') := by
  unfold valuesUpdateHeader
  split
  · exact ⟨rfl, fun _ => rfl⟩
  · split
    · refine ⟨rfl, fun t' => ?_⟩
      simp only [sheetExists]
      exact any_title_map s.sheets _ (fun sh => by
        by_cases h : sh.title = t <;> simp [h, setHeaderRow]) t'
    · exact ⟨rfl, fun _ => rfl⟩

theorem ensureTable_of_exists {s : Spreadsheet} {name : String}
    (headers : List String) (hc : memStr name s.failCreateFor = false)
    (he : sheetExists s name = true) : ensureTable s name headers = s := by
  unfold ensureTable batchUpdateAddSheet
  rw [hc, he]
  simp

theorem ensureTable_of_failCreate {s : Spreadsheet} {name : String}
    (headers : List String) (hc : memStr name s.failCreateFor = true) :
    ensureTable s name headers = s := by
  unfold ensureTable batchUpdateAddSheet
  rw [hc]
  simp

theorem ensureTable_idem (s : Spreadsheet) (name : String) (headers : List String) :
    ensureTable (ensureTable s name headers) name headers = ensureTable s name headers := by
  cases hc : memStr name s.failCreateFor with
  | true =>
    rw [ensureTable_of_failCreate headers hc, ensureTable_of_failCreate headers hc]
  | false =>
    cases he : sheetExists s name with
    | true =>
      rw [ensureTable_of_exists headers hc he, ensureTable_of_exists headers hc he]
    | false =>
      have hstep : ensureTable s name headers =
          (valuesUpdateHeader
            { s with sheets := s.sheets ++ [{ title := name, cells := [] }] }
            name headers).1 := by
        unfold ensureTable batchUpdateAddSheet
        rw [hc, he]
        simp
      set s' : Spreadsheet :=
        { s with sheets := s.sheets ++ [{ title := name, cells := [] }] } with hs'
      obtain ⟨hpresCreate, hpresExists⟩ := valuesUpdateHeader_preserves s' name headers
      have hc2 : memStr name (ensureTable s name headers).failCreateFor = false := by
        rw [hstep, hpresCreate]
        exact hc
      have he2 : sheetExists (ensureTable s name headers) name = true := by
        rw [hstep, hpresExists]
        simp [sheetExists, hs', List.any_append]
      rw [ensureTable_of_exists headers hc2 he2]

/-- C2: `ensureTable` (the try/catch creation-and-header block of
`processSheetFeedback`) is idempotent and best-effort: it is a total function
on the store (every creation/header failure is caught), a second call with
the same table name is a no-op past the first call's outcome, a call on a
store where the table already exists leaves the store unchanged (the
already-exists failure is treated as success), and `processSheetFeedback`
always proceeds to attempt the append on the store `ensureTable` produced,
whatever the creation/header outcome was. -/
theorem c2_ensureTable_idempotent_best_effort (now sheetKey : String) (s : Spreadsheet)
    (feedbackGroup : List EnhancedFeedbackData) :
    ensureTable (ensureTable s ("Responses_" ++ sheetKey) (headersList feedbackGroup))
        ("Responses_" ++ sheetKey) (headersList feedbackGroup) =
      ensureTable s ("Responses_" ++ sheetKey) (headersList feedbackGroup) ∧
    ((memStr ("Responses_" ++ sheetKey) s.failCreateFor = false ∧
      sheetExists s ("Responses_" ++ sheetKey) = true) →
      ensureTable s ("Responses_" ++ sheetKey) (headersList feedbackGroup) = s) ∧
    processSheetFeedback now s sheetKey feedbackGroup =
      valuesAppend (ensureTable s ("Responses_" ++ sheetKey) (headersList feedbackGroup))
        ("Responses_" ++ sheetKey)
        (buildRows now (questionIdsOf feedbackGroup) feedbackGroup) := by
  refine ⟨ensureTable_idem _ _ _, ?_, rfl⟩
  rintro ⟨hc, he⟩
  exact ensureTable_of_exists _ hc he

/-- C2 witness: on a store already holding the table, a (first or second)
`ensureTable` call returns without error and without change, and the append
is still attempted. -/
theorem c2_ensureTable_witness :
    ensureTable (ensureTable c2Store ("Responses_" ++ "CSE_1st Year_A")
        (headersList [c10SmallFeedback])) ("Responses_" ++ "CSE_1st Year_A")
        (headersList [c10SmallFeedback]) =
      ensureTable c2Store ("Responses_" ++ "CSE_1st Year_A") (headersList [c10SmallFeedback]) ∧
    ensureTable c2Store ("Responses_" ++ "CSE_1st Year_A") (headersList [c10SmallFeedback]) =
      c2Store ∧
    processSheetFeedback "NOW" c2Store "CSE_1st Year_A" [c10SmallFeedback] =
      valuesAppend
        (ensureTable c2Store ("Responses_" ++ "CSE_1st Year_A") (headersList [c10SmallFeedback]))
        ("Responses_" ++ "CSE_1st Year_A")
        (buildRows "NOW" (questionIdsOf [c10SmallFeedback]) [c10SmallFeedback]) :=
  ⟨(c2_ensureTable_idempotent_best_effort "NOW" "CSE_1st Year_A" c2Store [c10SmallFeedback]).1,
   (c2_ensureTable_idempotent_best_effort "NOW" "CSE_1st Year_A" c2Store [c10SmallFeedback]).2.1
     (by decide),
   (c2_ensureTable_idempotent_best_effort "NOW" "CSE_1st Year_A" c2Store [c10SmallFeedback]).2.2⟩

/-- C3 counterexample: in the batch `[c3FeedbackA, c3FeedbackB]` the append
of the CSE group fails hard, and the ECE group is NOT attempted — its table
is never created in the final store — although processing it alone from the
failure-point store would have created that table.  The failure is not
isolated per cohort; it aborts the remaining groups. -/
theorem c3_counterexample :
    (processAllGroups "NOW" c3Store (groupFeedbackBySheet [c3FeedbackA, c3FeedbackB])).2 =
      some (ApiError.apiFailure "append") ∧
    sheetExists (processAllGroups "NOW" c3Store
        (groupFeedbackBySheet [c3FeedbackA, c3FeedbackB])).1 "Responses_ECE_1st Year_A" =
      false ∧
    sheetExists (processSheetFeedback "NOW"
        (processSheetFeedback "NOW" c3Store "CSE_1st Year_A" [c3FeedbackA]).1
        "ECE_1st Year_A" [c3FeedbackB]).1 "Responses_ECE_1st Year_A" = true := by
  refine ⟨by decide, by decide, by decide⟩

/-- C3 (amended): a hard failure while appending one cohort group's rows
aborts the per-group loop of the POST handler: the failing group's outcome
becomes the outcome of the whole batch, and the remaining cohort groups are
not attempted at all (the result does not depend on them). -/
theorem c3_first_failure_aborts (now : String) (s : Spreadsheet) (sheetKey : String)
    (feedbackGroup : List EnhancedFeedbackData)
    (rest : List (String × List EnhancedFeedbackData)) (s1 : Spreadsheet) (e : ApiError)
    (h : processSheetFeedback now s sheetKey feedbackGroup = (s1, some e)) :
    processAllGroups now s ((sheetKey, feedbackGroup) :: rest) = (s1, some e) := by
  unfold processAllGroups
  rw [h]

/-- C3 witness: the CSE group's append failure is the outcome of the whole
two-group batch, whatever the second group is. -/
theorem c3_first_failure_aborts_witness :
    processAllGroups "NOW" c3Store
        [("CSE_1st Year_A", [c3FeedbackA]), ("ECE_1st Year_A", [c3FeedbackB])] =
      ((processSheetFeedback "NOW" c3Store "CSE_1st Year_A" [c3FeedbackA]).1,
       some (ApiError.apiFailure "append")) :=
  c3_first_failure_aborts "NOW" c3Store "CSE_1st Year_A" [c3FeedbackA]
    [("ECE_1st Year_A", [c3FeedbackB])]
    (processSheetFeedback "NOW" c3Store "CSE_1st Year_A" [c3FeedbackA]).1
    (ApiError.apiFailure "append") (by decide)

theorem memStr_iff {x : String} {l : List String} : memStr x l = true ↔ x ∈ l := by
  simp [memStr, List.any_eq_true]

theorem groupLookup_addToGroup (groups : List (String × List EnhancedFeedbackData))
    (key k : String) (f : EnhancedFeedbackData) :
    groupLookup (addToGroup groups key f) k =
      if k = key then
        (match groupLookup groups k with
         | none => some [f]
         | some fs => some (fs ++ [f]))
      else groupLookup groups k := by
  induction groups with
  | nil =>
    by_cases h : k = key
    · subst h
      simp [addToGroup, groupLookup]
    · have h2 : ¬key = k := fun hh => h hh.symm
      simp [addToGroup, groupLookup, h, h2]
  | cons g rest ih =>
    obtain ⟨k0, fs0⟩ := g
    by_cases h0 : k0 = key
    · subst h0
      by_cases hk : k = k0
      · subst hk
        simp [addToGroup, groupLookup]
      · have hk2 : ¬k0 = k := fun hh => hk hh.symm
        simp [addToGroup, groupLookup, hk, hk2]
    · by_cases hk : k0 = k
      · subst hk
        simp [addToGroup, groupLookup, h0]
      · simp [addToGroup, groupLookup, h0, hk, ih]

theorem groupLookup_foldl (l : List EnhancedFeedbackData) :
    ∀ (acc : List (String × List EnhancedFeedbackData)) (k : String),
      groupLookup (l.foldl (fun gs f => addToGroup gs (sheetKeyOf f) f) acc) k =
        (match groupLookup acc k with
         | some gs => some (gs ++ l.filter (fun f => decide (sheetKeyOf f = k)))
         | none =>
           if l.filter (fun f => decide (sheetKeyOf f = k)) = [] then none
           else some (l.filter (fun f => decide (sheetKeyOf f = k)))) := by
  induction l with
  | nil =>
    intro acc k
    cases h : groupLookup acc k <;> simp [h]
  | cons f fs ih =>
    intro acc k
    rw [List.foldl_cons, ih]
    by_cases hk : sheetKeyOf f = k
    · have hk2 : k = sheetKeyOf f := hk.symm
      rw [groupLookup_addToGroup acc (sheetKeyOf f) k f, if_pos hk2]
      cases h : groupLookup acc k with
      | none => simp [h, List.filter_cons, hk]
      | some gs => simp [h, List.filter_cons, hk]
    · have hk2 : ¬k = sheetKeyOf f := fun hh => hk hh.symm
      rw [groupLookup_addToGroup acc (sheetKeyOf f) k f, if_neg hk2]
      simp [List.filter_cons, hk]

theorem keys_addToGroup (groups : List (String × List EnhancedFeedbackData))
    (key : String) (f : EnhancedFeedbackData) :
    (addToGroup groups key f).map Prod.fst =
      if key ∈ groups.map Prod.fst then groups.map Prod.fst
      else groups.map Prod.fst ++ [key] := by
  induction groups with
  | nil => simp [addToGroup]
  | cons g rest ih =>
    obtain ⟨k0, fs0⟩ := g
    by_cases h0 : k0 = key
    · subst h0
      simp [addToGroup]
    · have h0r : ¬key = k0 := fun hh => h0 hh.symm
      by_cases hmem : key ∈ rest.map Prod.fst <;>
        simp [addToGroup, h0, h0r, hmem, ih]

theorem nodup_keys_foldl (l : List EnhancedFeedbackData) :
    ∀ acc : List (String × List EnhancedFeedbackData),
      (acc.map Prod.fst).Nodup →
      ((l.foldl (fun gs f => addToGroup gs (sheetKeyOf f) f) acc).map Prod.fst).Nodup := by
  induction l with
  | nil => intro acc h; exact h
  | cons f fs ih =>
    intro acc h
    rw [List.foldl_cons]
    apply ih
    rw [keys_addToGroup]
    by_cases hmem : sheetKeyOf f ∈ acc.map Prod.fst
    · rw [if_pos hmem]; exact h
    · rw [if_neg hmem, List.nodup_append]
      refine ⟨h, List.nodup_singleton _, ?_⟩
      intro a ha hb
      simp only [List.mem_singleton] at hb
      subst hb
      exact hmem ha

theorem groupLookup_eq_none_iff (groups : List (String × List EnhancedFeedbackData))
    (k : String) : groupLookup groups k = none ↔ k ∉ groups.map Prod.fst := by
  induction groups with
  | nil => simp [groupLookup]
  | cons g rest ih =>
    obtain ⟨k0, fs0⟩ := g
    by_cases h0 : k0 = k
    · subst h0
      simp [groupLookup]
    · have h0r : ¬k = k0 := fun hh => h0 hh.symm
      simp [groupLookup, h0, h0r, ih]

/-- C8: `groupFeedbackBySheet` is a pure partition of the batch keyed by
`branch_year_section`: the group stored under a key is exactly the
subsequence of batch items carrying that key (stable insertion order), every
key of the result comes from some batch item and no key repeats; in
particular the claim's three-item batch yields exactly the two groups
`CSE_1st Year_A` (size 2) and `ECE_1st Year_A` (size 1), in that order. -/
theorem c8_groupFeedbackBySheet (l : List EnhancedFeedbackData) :
    (∀ k, groupLookup (groupFeedbackBySheet l) k =
      (if l.filter (fun f => decide (sheetKeyOf f = k)) = [] then none
       else some (l.filter (fun f => decide (sheetKeyOf f = k))))) ∧
    ((groupFeedbackBySheet l).map Prod.fst).Nodup ∧
    (∀ k, k ∈ (groupFeedbackBySheet l).map Prod.fst ↔ k ∈ l.map sheetKeyOf) ∧
    groupFeedbackBySheet [c8Feedback1, c8Feedback2, c8Feedback3] =
      [("CSE_1st Year_A", [c8Feedback1, c8Feedback2]),
       ("ECE_1st Year_A", [c8Feedback3])] := by
  have hlook : ∀ k, groupLookup (groupFeedbackBySheet l) k =
      (if l.filter (fun f => decide (sheetKeyOf f = k)) = [] then none
       else some (l.filter (fun f => decide (sheetKeyOf f = k)))) := by
    intro k
    unfold groupFeedbackBySheet
    rw [groupLookup_foldl l [] k]
    rfl
  refine ⟨hlook, nodup_keys_foldl l [] (by simp), ?_, by decide⟩
  intro k
  have h1 := groupLookup_eq_none_iff (groupFeedbackBySheet l) k
  rw [hlook k] at h1
  by_cases hf : l.filter (fun f => decide (sheetKeyOf f = k)) = []
  · have : k ∉ (groupFeedbackBySheet l).map Prod.fst := h1.mp (by rw [if_pos hf])
    simp only [this, false_iff]
    intro hmem
    obtain ⟨f, hfl, rfl⟩ := List.mem_map.mp hmem
    have := List.filter_eq_nil.mp hf f hfl
    simp at this
  · have hne : ¬(if l.filter (fun f => decide (sheetKeyOf f = k)) = []
        then (none : Option (List EnhancedFeedbackData))
        else some (l.filter (fun f => decide (sheetKeyOf f = k)))) = none := by
      rw [if_neg hf]
      simp
    have hk : k ∈ (groupFeedbackBySheet l).map Prod.fst := by
      by_contra hc
      exact hne (h1.mpr hc)
    simp only [hk, true_iff]
    obtain ⟨f, hfmem⟩ := List.exists_mem_of_ne_nil _ hf
    obtain ⟨hfl, hfk⟩ := List.mem_filter.mp hfmem
    simp only [decide_eq_true_eq] at hfk
    exact List.mem_map.mpr ⟨f, hfl, hfk⟩

theorem mem_collectCol {d : List (List String)} {i : Nat} {v : String} :
    v ∈ collectCol d i ↔
      ∃ row ∈ d, ∃ cell, row.get? i = some cell ∧ cell ≠ "" ∧ jsTrim cell = v := by
  simp only [collectCol, List.mem_filterMap]
  constructor
  · rintro ⟨row, hrow, hfm⟩
    cases hg : row.get? i with
    | none => rw [hg] at hfm; simp at hfm
    | some cell =>
      rw [hg] at hfm
      by_cases hc : cell = ""
      · simp [hc] at hfm
      · simp only [if_neg hc, Option.some.injEq] at hfm
        exact ⟨row, hrow, cell, hg, hc, hfm⟩
  · rintro ⟨row, hrow, cell, hg, hc, hv⟩
    refine ⟨row, hrow, ?_⟩
    rw [hg]
    simp [hc, hv]

theorem collectCol_perm {d d' : List (List String)} (h : d.Perm d') (i : Nat) :
    (collectCol d i).Perm (collectCol d' i) :=
  h.filterMap _

theorem sortedDedup_nodup (l : List String) : (sortStrings l.dedup).Nodup :=
  ((sortStrings_perm l.dedup).nodup_iff).mpr (List.nodup_dedup l)

/-- C4: for every configuration table with at least two rows (a header row
plus a non-empty list of data rows), both shipped variants of the options
route succeed with the same index; each of the three lists contains a value
`v` exactly when some data row holds, at the corresponding position 0/1/2, a
non-empty cell trimming to `v`; each such value occurs exactly once; each
list is sorted ascending in the lexicographic string order; and the whole
index is invariant under permutation of the data rows. -/
theorem c4_parseOptions (hdr : List String) (d d' : List (List String))
    (hne : d ≠ []) (hperm : d.Perm d') :
    ∃ idx : OptionsIndex,
      parseOptionsV2 (hdr :: d) = .ok idx ∧
      parseOptionsV1 (hdr :: d) = .ok idx ∧
      parseOptionsV2 (hdr :: d') = .ok idx ∧
      (∀ v : String,
        (v ∈ idx.branches ↔
          ∃ row ∈ d, ∃ cell, row.get? 0 = some cell ∧ cell ≠ "" ∧ jsTrim cell = v) ∧
        (v ∈ idx.years ↔
          ∃ row ∈ d, ∃ cell, row.get? 1 = some cell ∧ cell ≠ "" ∧ jsTrim cell = v) ∧
        (v ∈ idx.sections ↔
          ∃ row ∈ d, ∃ cell, row.get? 2 = some cell ∧ cell ≠ "" ∧ jsTrim cell = v) ∧
        (v ∈ idx.branches → idx.branches.count v = 1) ∧
        (v ∈ idx.years → idx.years.count v = 1) ∧
        (v ∈ idx.sections → idx.sections.count v = 1)) ∧
      idx.branches.Sorted strLe ∧ idx.years.Sorted strLe ∧ idx.sections.Sorted strLe := by
  refine ⟨parseOptionsCore d, ?_, ?_, ?_, ?_, ?_, ?_, ?_⟩
  · have hdl : d.length ≠ 0 := by simpa [List.length_eq_zero] using hne
    have h2 : (hdr :: d).length ≠ 1 := by
      rw [List.length_cons]
      omega
    simp [parseOptionsV2, h2, hne]
  · simp [parseOptionsV1]
  · have hne' : d' ≠ [] := fun h => hne (List.Perm.eq_nil (h ▸ hperm))
    have hdl : d'.length ≠ 0 := by simpa [List.length_eq_zero] using hne'
    have h2 : (hdr :: d').length ≠ 1 := by
      rw [List.length_cons]
      omega
    have hcore : parseOptionsCore d' = parseOptionsCore d := by
      unfold parseOptionsCore
      rw [sortStrings_eq_of_perm ((collectCol_perm hperm 0).dedup).symm,
          sortStrings_eq_of_perm ((collectCol_perm hperm 1).dedup).symm,
          sortStrings_eq_of_perm ((collectCol_perm hperm 2).dedup).symm]
    simp [parseOptionsV2, h2, hne', hcore]
  · intro v
    refine ⟨?_, ?_, ?_, ?_, ?_, ?_⟩
    · rw [show (parseOptionsCore d).branches = sortStrings (collectCol d 0).dedup from rfl,
        sortStrings_mem, List.mem_dedup]
      exact mem_collectCol
    · rw [show (parseOptionsCore d).years = sortStrings (collectCol d 1).dedup from rfl,
        sortStrings_mem, List.mem_dedup]
      exact mem_collectCol
    · rw [show (parseOptionsCore d).sections = sortStrings (collectCol d 2).dedup from rfl,
        sortStrings_mem, List.mem_dedup]
      exact mem_collectCol
    · exact fun hv => List.count_eq_one_of_mem (sortedDedup_nodup _) hv
    · exact fun hv => List.count_eq_one_of_mem (sortedDedup_nodup _) hv
    · exact fun hv => List.count_eq_one_of_mem (sortedDedup_nodup _) hv
  · exact sortStrings_sorted _
  · exact sortStrings_sorted _
  · exact sortStrings_sorted _

/-- C4 witness: a three-row table and a permutation of its data rows. -/
theorem c4_parseOptions_witness :
    ∃ idx : OptionsIndex,
      parseOptionsV2 [["Branch", "Year", "Section"],
        [" CSE ", "1st Year", "A"], ["ECE", "1st Year", "B"]] = .ok idx ∧
      parseOptionsV1 [["Branch", "Year", "Section"],
        [" CSE ", "1st Year", "A"], ["ECE", "1st Year", "B"]] = .ok idx ∧
      parseOptionsV2 [["Branch", "Year", "Section"],
        ["ECE", "1st Year", "B"], [" CSE ", "1st Year", "A"]] = .ok idx ∧
      (∀ v : String,
        (v ∈ idx.branches ↔
          ∃ row ∈ [[" CSE ", "1st Year", "A"], ["ECE", "1st Year", "B"]],
            ∃ cell, row.get? 0 = some cell ∧ cell ≠ "" ∧ jsTrim cell = v) ∧
        (v ∈ idx.years ↔
          ∃ row ∈ [[" CSE ", "1st Year", "A"], ["ECE", "1st Year", "B"]],
            ∃ cell, row.get? 1 = some cell ∧ cell ≠ "" ∧ jsTrim cell = v) ∧
        (v ∈ idx.sections ↔
          ∃ row ∈ [[" CSE ", "1st Year", "A"], ["ECE", "1st Year", "B"]],
            ∃ cell, row.get? 2 = some cell ∧ cell ≠ "" ∧ jsTrim cell = v) ∧
        (v ∈ idx.branches → idx.branches.count v = 1) ∧
        (v ∈ idx.years → idx.years.count v = 1) ∧
        (v ∈ idx.sections → idx.sections.count v = 1)) ∧
      idx.branches.Sorted strLe ∧ idx.years.Sorted strLe ∧ idx.sections.Sorted strLe :=
  c4_parseOptions ["Branch", "Year", "Section"]
    [[" CSE ", "1st Year", "A"], ["ECE", "1st Year", "B"]]
    [["ECE", "1st Year", "B"], [" CSE ", "1st Year", "A"]]
    (by decide) (by decide)

/-- C5 counterexample: on a table holding only the header row, the shipped
route `src/src/app/api/get-options/route.ts` (which checks only
`rows.length === 0`) returns a 200 success carrying three empty lists — not
a 404 `NoDataRows` condition. -/
theorem c5_counterexample :
    parseOptionsV1 [["Branch", "Year", "Section"]] =
      .ok { branches := [], years := [], sections := [] } := by
  decide

/-- C5 (amended): on an input with fewer than two rows, the enhanced
options variant (`src/unnamed/part_002`) always yields a 404 error
condition — `noData` for an empty table, `noDataRows` with the empty index
for a header-only table — and never a success; the `route.ts` variant
yields the 404 only for the empty table and returns a success carrying the
empty index for a header-only table. -/
theorem c5_fewer_than_two_rows (rows : List (List String)) (h : rows.length < 2) :
    (rows.length = 0 →
      parseOptionsV2 rows = .error .noData ∧ parseOptionsV1 rows = .error .noData) ∧
    (rows.length = 1 →
      parseOptionsV2 rows = .error .noDataRows ∧
      parseOptionsV1 rows = .ok { branches := [], years := [], sections := [] }) := by
  constructor
  · intro h0
    simp [parseOptionsV2, parseOptionsV1, h0]
  · intro h1
    obtain ⟨hdr, htl⟩ : ∃ hdr, rows = [hdr] := by
      cases rows with
      | nil => simp at h1
      | cons x xs =>
        cases xs with
        | nil => exact ⟨x, rfl⟩
        | cons y ys => simp at h1
    subst htl
    refine ⟨by simp [parseOptionsV2], ?_⟩
    simp [parseOptionsV1, parseOptionsCore, collectCol, sortStrings, List.insertionSort]

/-- C5 witness: the two sub-two-row shapes at concrete inputs. -/
theorem c5_fewer_than_two_rows_witness :
    ((([] : List (List String)).length = 0 →
      parseOptionsV2 [] = .error .noData ∧ parseOptionsV1 [] = .error .noData) ∧
    (([] : List (List String)).length = 1 →
      parseOptionsV2 [] = .error .noDataRows ∧
      parseOptionsV1 [] = .ok { branches := [], years := [], sections := [] })) ∧
    ((([["Branch", "Year", "Section"]] : List (List String)).length = 0 →
      parseOptionsV2 [["Branch", "Year", "Section"]] = .error .noData ∧
      parseOptionsV1 [["Branch", "Year", "Section"]] = .error .noData) ∧
    (([["Branch", "Year", "Section"]] : List (List String)).length = 1 →
      parseOptionsV2 [["Branch", "Year", "Section"]] = .error .noDataRows ∧
      parseOptionsV1 [["Branch", "Year", "Section"]] =
        .ok { branches := [], years := [], sections := [] })) :=
  ⟨c5_fewer_than_two_rows [] (by decide),
   c5_fewer_than_two_rows [["Branch", "Year", "Section"]] (by decide)⟩

theorem foldl_qcolStep (t : Nat) :
    ∀ (l : List (Nat × String)) (acc : List (Nat × String × String)),
      l.foldl (qcolStep t) acc =
        acc ++ assignIdsFrom acc.length
          (l.filter (fun p => decide (t < p.1 ∧ p.2 ≠ "" ∧ jsTrim p.2 ≠ "")))
  | [], acc => by simp [assignIdsFrom]
  | p :: rest, acc => by
    rw [List.foldl_cons]
    by_cases hp : t < p.1 ∧ p.2 ≠ "" ∧ jsTrim p.2 ≠ ""
    · have hstep : qcolStep t acc p =
          acc ++ [(p.1, "question" ++ Nat.repr (acc.length + 1), jsTrim p.2)] := by
        simp [qcolStep, hp]
      rw [hstep, foldl_qcolStep t rest _, List.filter_cons_of_pos (by simpa using hp)]
      rw [assignIdsFrom, ← List.append_cons]
      congr 2
      simp
    · have hstep : qcolStep t acc p = acc := by
        simp [qcolStep, hp]
      rw [hstep, foldl_qcolStep t rest acc, List.filter_cons_of_neg (by simpa using hp)]

theorem assignIdsFrom_get? (l : List (Nat × String)) :
    ∀ (k j : Nat),
      (assignIdsFrom k l).get? j =
        (l.get? j).map (fun p => (p.1, "question" ++ Nat.repr (k + j + 1), jsTrim p.2)) := by
  induction l with
  | nil => intro k j; simp [assignIdsFrom]
  | cons p rest ih =>
    intro k j
    cases j with
    | zero => simp [assignIdsFrom]
    | succ j =>
      simp only [assignIdsFrom, List.get?_cons_succ]
      rw [ih (k + 1) j]
      have harith : k + 1 + j + 1 = k + (j + 1) + 1 := by omega
      simp only [harith]

theorem assignIdsFrom_map_fst (l : List (Nat × String)) :
    ∀ k : Nat, (assignIdsFrom k l).map Prod.fst = l.map Prod.fst := by
  induction l with
  | nil => intro k; rfl
  | cons p rest ih => intro k; simp [assignIdsFrom, ih]

theorem mem_assignIdsFrom_id (l : List (Nat × String)) :
    ∀ (k : Nat) (x : String), x ∈ (assignIdsFrom k l).map (fun c => c.2.1) →
      ∃ m, k < m ∧ x = "question" ++ Nat.repr m := by
  induction l with
  | nil => intro k x h; simp [assignIdsFrom] at h
  | cons p rest ih =>
    intro k x h
    simp only [assignIdsFrom, List.map_cons, List.mem_cons] at h
    rcases h with h | h
    · exact ⟨k + 1, by omega, h⟩
    · obtain ⟨m, hm, hx⟩ := ih (k + 1) x h
      exact ⟨m, by omega, hx⟩

theorem assignIdsFrom_ids_nodup (l : List (Nat × String)) :
    ∀ k : Nat, ((assignIdsFrom k l).map (fun c => c.2.1)).Nodup := by
  induction l with
  | nil => intro k; simp [assignIdsFrom]
  | cons p rest ih =>
    intro k
    simp only [assignIdsFrom, List.map_cons, List.nodup_cons]
    refine ⟨?_, ih (k + 1)⟩
    intro hmem
    obtain ⟨m, hm, hx⟩ := mem_assignIdsFrom_id rest (k + 1) _ hmem
    have : k + 1 = m := question_id_inj hx
    omega

theorem questionColumns_eq (headers : List String) (t : Nat) :
    questionColumns headers t =
      assignIdsFrom 0 (headers.enum.filter
        (fun p => decide (t < p.1 ∧ p.2 ≠ "" ∧ jsTrim p.2 ≠ ""))) := by
  show headers.enum.foldl (qcolStep t) [] = _
  rw [foldl_qcolStep]
  rfl

theorem qcolPred_simp (t : Nat) (p : Nat × String) :
    decide (t < p.1 ∧ p.2 ≠ "" ∧ jsTrim p.2 ≠ "") = decide (t < p.1 ∧ jsTrim p.2 ≠ "") := by
  obtain ⟨i, s⟩ := p
  by_cases h2 : s = ""
  · subst h2
    have htriv : jsTrim "" = "" := rfl
    simp [htriv]
  · simp [h2]

theorem matchRow_some {branch year sectionName : String}
    {bI yI sI subI tI : Nat} {qcols : List (Nat × String × String)}
    {row : List String} {sub : AdminSubject}
    (h : matchRow branch year sectionName bI yI sI subI tI qcols row = some sub) :
    sub.questions = qcols.map (fun c =>
      { id := c.2.1, text := c.2.2, type := QuestionType.rating, required := true }) := by
  unfold matchRow at h
  split at h
  · split at h
    · cases h
      rfl
    · cases h
  · cases h

theorem parseCohortSchema_ok {rows : List (List String)} {b y s now : String}
    {cfg : AdminSheetConfig} (h : parseCohortSchema rows b y s now = .ok cfg) :
    ∃ headers dataRows bI yI sI subI tI,
      rows = headers :: dataRows ∧
      locateColumns headers = some (bI, yI, sI, subI, tI) ∧
      cfg.subjects = dataRows.filterMap
        (matchRow b y s bI yI sI subI tI (questionColumns headers tI)) ∧
      cfg.subjects ≠ [] := by
  cases rows with
  | nil => cases h
  | cons headers dataRows =>
    simp only [parseCohortSchema] at h
    cases hloc : locateColumns headers with
    | none => rw [hloc] at h; cases h
    | some cols =>
      obtain ⟨bI, yI, sI, subI, tI⟩ := cols
      rw [hloc] at h
      simp only at h
      split at h
      · cases h
      · cases h
        rename_i hne
        refine ⟨headers, dataRows, bI, yI, sI, subI, tI, rfl, hloc, rfl, ?_⟩
        simpa [List.isEmpty_iff] using hne

/-- C6: the question columns are exactly the header cells at indices
strictly greater than the teacher-column index whose trimmed value is
non-empty, in header order; entry `j` carries the position-derived id
`question(j+1)` (not derived from the header text) and the trimmed header
cell at its index as text; the ids of one extraction are pairwise distinct,
so they are unique within one schema response; and every `Question` a
successful `parseCohortSchema` emits has type `rating` and `required = true`. -/
theorem c6_question_column_inference (headers : List String) (teacherIndex : Nat) :
    ((questionColumns headers teacherIndex).map Prod.fst =
      (headers.enum.filter
        (fun p => decide (teacherIndex < p.1 ∧ jsTrim p.2 ≠ ""))).map Prod.fst) ∧
    (∀ j c, (questionColumns headers teacherIndex).get? j = some c →
      c.2.1 = "question" ++ Nat.repr (j + 1) ∧
      ∃ cell, headers.get? c.1 = some cell ∧ c.2.2 = jsTrim cell ∧ teacherIndex < c.1) ∧
    ((questionColumns headers teacherIndex).map (fun c => c.2.1)).Nodup ∧
    (∀ rows b y s now cfg, parseCohortSchema rows b y s now = .ok cfg →
      ∀ sub ∈ cfg.subjects,
        (sub.questions.map Question.id).Nodup ∧
        ∀ q ∈ sub.questions, q.type = QuestionType.rating ∧ q.required = true) := by
  refine ⟨?_, ?_, ?_, ?_⟩
  · rw [questionColumns_eq, assignIdsFrom_map_fst]
    congr 1
    exact List.filter_congr (fun p _ => qcolPred_simp teacherIndex p)
  · intro j c hc
    rw [questionColumns_eq, assignIdsFrom_get? _ 0 j] at hc
    cases hp : (headers.enum.filter
        (fun p => decide (teacherIndex < p.1 ∧ p.2 ≠ "" ∧ jsTrim p.2 ≠ ""))).get? j with
    | none => rw [hp] at hc; cases hc
    | some p =>
      rw [hp] at hc
      replace hc := Option.some.inj hc
      subst hc
      have hmem := List.get?_mem hp
      obtain ⟨hmem_enum, hpred⟩ := List.mem_filter.mp hmem
      simp only [decide_eq_true_eq] at hpred
      obtain ⟨i, a⟩ := p
      refine ⟨by simp, a, List.mk_mem_enum_iff_get?.mp hmem_enum, rfl, hpred.1⟩
  · rw [questionColumns_eq]
    exact assignIdsFrom_ids_nodup _ 0
  · intro rows b y s now cfg hok sub hsub
    obtain ⟨hdrs, dataRows, bI, yI, sI, subI, tI, hrows, hloc, hsubj, _⟩ :=
      parseCohortSchema_ok hok
    rw [hsubj] at hsub
    obtain ⟨row, _, hrow⟩ := List.mem_filterMap.mp hsub
    have hq := matchRow_some hrow
    constructor
    · rw [hq, List.map_map]
      have : (Question.id ∘ fun c : Nat × String × String =>
          ({ id := c.2.1, text := c.2.2, type := QuestionType.rating,
             required := true } : Question)) = fun c => c.2.1 := rfl
      rw [this]
      exact (questionColumns_eq hdrs tI) ▸ assignIdsFrom_ids_nodup _ 0
    · intro q hqmem
      rw [hq] at hqmem
      obtain ⟨c, _, rfl⟩ := List.mem_map.mp hqmem
      exact ⟨rfl, rfl⟩

/-- C6 witness: at the header
`[Branch, Year, Section, Subject, Teacher, Q1, "", Q2]` with teacher index 4,
entry 1 of the question columns is `(7, question2, Q2)` — position-derived
id, trimmed header text, index past the teacher column. -/
theorem c6_question_column_inference_witness :
    ("question2" : String) = "question" ++ Nat.repr (1 + 1) ∧
    ∃ cell,
      (["Branch", "Year", "Section", "Subject", "Teacher", "Q1", "", "Q2"] :
        List String).get? 7 = some cell ∧
      ("Q2" : String) = jsTrim cell ∧ 4 < 7 :=
  (c6_question_column_inference
    ["Branch", "Year", "Section", "Subject", "Teacher", "Q1", "", "Q2"] 4).2.1
    1 (7, "question2", "Q2") (by decide)

/-- C7: for every cohort key (branch, year, section) such that no data row
of the configuration table matches it by exact trimmed-string equality on
the three located key columns, `parseCohortSchema` returns the `notFound`
condition (the 404 with `useStaticData`); and in general a successful
`CohortSchema` never carries an empty subjects list. -/
theorem c7_cohort_not_found (hdr : List String) (dataRows : List (List String))
    (b y s now : String) (bI yI sI subI tI : Nat)
    (hloc : locateColumns hdr = some (bI, yI, sI, subI, tI))
    (hnomatch : ∀ row ∈ dataRows,
      ¬((row.get? bI).map jsTrim = some b ∧ (row.get? yI).map jsTrim = some y ∧
        (row.get? sI).map jsTrim = some s)) :
    parseCohortSchema (hdr :: dataRows) b y s now = .error .notFound ∧
    (∀ rows b' y' s' now' cfg, parseCohortSchema rows b' y' s' now' = .ok cfg →
      cfg.subjects ≠ []) := by
  constructor
  · have hnil : dataRows.filterMap
        (matchRow b y s bI yI sI subI tI (questionColumns hdr tI)) = [] := by
      rw [List.filterMap_eq_nil_iff]
      intro row hrow
      have hno := hnomatch row hrow
      unfold matchRow
      split
      · rename_i rowBranch rowYear rowSection rowSubject rowTeacher hb hy hs hsub ht
        rw [if_neg]
        rintro ⟨h1, h2, h3, _, _⟩
        exact hno ⟨by rw [hb, h1], by rw [hy, h2], by rw [hs, h3]⟩
      · rfl
    simp only [parseCohortSchema]
    rw [hloc]
    simp only
    rw [hnil]
    rfl
  · intro rows b' y' s' now' cfg hok
    obtain ⟨_, _, _, _, _, _, _, _, _, _, hne⟩ := parseCohortSchema_ok hok
    exact hne

/-- C7 witness: the cohort (EEE, 1st Year, A) matches no data row of a
one-row configuration table, and the route answers `notFound`. -/
theorem c7_cohort_not_found_witness :
    parseCohortSchema
        [["Branch", "Year", "Section", "Subject", "Teacher", "Q1"],
         ["CSE", "1st Year", "A", "Math", "Dr.X", "5"]]
        "EEE" "1st Year" "A" "NOW" = .error .notFound ∧
    (∀ rows b' y' s' now' cfg, parseCohortSchema rows b' y' s' now' = .ok cfg →
      cfg.subjects ≠ []) :=
  c7_cohort_not_found ["Branch", "Year", "Section", "Subject", "Teacher", "Q1"]
    [["CSE", "1st Year", "A", "Math", "Dr.X", "5"]]
    "EEE" "1st Year" "A" "NOW" 0 1 2 3 4 (by decide) (by decide)

/-- C9 (amended): every subject entry of one successful `CohortSchema`
response carries an element-wise identical question list, equal to the list
derived from the header row alone (ids by position, texts from the header
cells after the teacher column); data-row values therefore never affect the
question lists — though they can affect the subject/teacher fields even
through a question column, when the subject column lies after the teacher
column. -/
theorem c9_questions_header_derived (rows : List (List String)) (b y s now : String)
    (cfg : AdminSheetConfig) (h : parseCohortSchema rows b y s now = .ok cfg) :
    (∀ s1 ∈ cfg.subjects, ∀ s2 ∈ cfg.subjects, s1.questions = s2.questions) ∧
    (∃ headers dataRows teacherIndex,
      rows = headers :: dataRows ∧
      (∃ bI yI sI subI, locateColumns headers = some (bI, yI, sI, subI, teacherIndex)) ∧
      ∀ sub ∈ cfg.subjects,
        sub.questions = (questionColumns headers teacherIndex).map (fun c =>
          { id := c.2.1, text := c.2.2, type := QuestionType.rating,
            required := true })) := by
  obtain ⟨headers, dataRows, bI, yI, sI, subI, tI, hrows, hloc, hsubj, _⟩ :=
    parseCohortSchema_ok h
  have hall : ∀ sub ∈ cfg.subjects,
      sub.questions = (questionColumns headers tI).map (fun c =>
        { id := c.2.1, text := c.2.2, type := QuestionType.rating,
          required := true }) := by
    intro sub hsub
    rw [hsubj] at hsub
    obtain ⟨row, _, hrow⟩ := List.mem_filterMap.mp hsub
    exact matchRow_some hrow
  exact ⟨fun s1 h1 s2 h2 => (hall s1 h1).trans (hall s2 h2).symm,
    headers, dataRows, tI, hrows, ⟨bI, yI, sI, subI, hloc⟩, hall⟩

/-- C9 counterexample: with header `[Branch, Year, Section, Teacher,
Subject]`, the teacher column has index 3 and the question columns are
exactly `[4]` — the Subject column itself.  The two tables differ only in
the data row's value at that question column, yet the returned schemas
differ, so the values in a data row's question columns do affect the
returned schema. -/
theorem c9_counterexample :
    findHeaderIndex ["Branch", "Year", "Section", "Teacher", "Subject"] "teacher" =
      some 3 ∧
    (questionColumns ["Branch", "Year", "Section", "Teacher", "Subject"] 3).map
      Prod.fst = [4] ∧
    c9RowsA.head? = c9RowsB.head? ∧
    (c9RowsA.get? 1).map (List.take 4) = (c9RowsB.get? 1).map (List.take 4) ∧
    (c9RowsA.get? 1).map (fun r => r.get? 4) = some (some "Math") ∧
    (c9RowsB.get? 1).map (fun r => r.get? 4) = some (some "Physics") ∧
    parseCohortSchema c9RowsA "CSE" "1st Year" "A" "NOW" ≠
      parseCohortSchema c9RowsB "CSE" "1st Year" "A" "NOW" := by
  refine ⟨by decide, by decide, by decide, by decide, by decide, by decide, by decide⟩

/-- C9 witness: the header-derived question list of a concrete successful
response. -/
theorem c9_questions_header_derived_witness :
    (∀ s1 ∈ c9WitnessConfig.subjects, ∀ s2 ∈ c9WitnessConfig.subjects,
      s1.questions = s2.questions) ∧
    (∃ headers dataRows teacherIndex,
      c9WitnessRows = headers :: dataRows ∧
      (∃ bI yI sI subI, locateColumns headers = some (bI, yI, sI, subI, teacherIndex)) ∧
      ∀ sub ∈ c9WitnessConfig.subjects,
        sub.questions = (questionColumns headers teacherIndex).map (fun c =>
          { id := c.2.1, text := c.2.2, type := QuestionType.rating,
            required := true })) :=
  c9_questions_header_derived c9WitnessRows "CSE" "1st Year" "A" "NOW"
    c9WitnessConfig (by decide)
